import Mathlib

/-!
Shallow embedding of `upstreams.go` from `caddy-docker-upstreams`: a dynamic
upstream-discovery layer for a reverse proxy.  The Go file holds four label
constants, a request matcher (`match`), an address resolver with a
process-wide cache (`toUpstream` over the `addresses` map), the per-request
provider (`GetUpstreams`), and a background watcher (`keepUpdated`).

Modelling conventions:
* Go maps with string keys become functions `String → Option _` (labels,
  address cache) or ordered association lists (network attachments, whose
  iteration order only matters through "the first entry").
* The process-wide mutable `addresses` cache becomes explicit state passed
  through `toUpstream` and `GetUpstreams`.
* The watcher's channel loop becomes a step function over a finite trace of
  received messages; the snapshot store's `sync.RWMutex` becomes a small
  interleaving model with explicit lock-acquire/release actions.
-/

namespace DockerUpstreams

/-- An incoming HTTP request, projected to the fields the registered
matchers consult (Host header and URL path). -/
structure Request where
  host : String
  path : String
deriving DecidableEq

/-- A container record as listed by the Docker client, projected to the
fields `upstreams.go` reads: `container.ID`, `container.Labels`, and
`container.NetworkSettings.Networks` (a name → endpoint map; we keep it as
an ordered list of (network name, IP address) pairs since the code only
takes the first entry). -/
structure Container where
  id : String
  labels : String → Option String
  networks : List (String × String)

/-- A resolved upstream, `reverseproxy.Upstream{Dial: address}`. -/
structure Upstream where
  Dial : String
deriving DecidableEq

/-- Label key `com.caddyserver.http.enable` (source constant `LabelEnable`). -/
def LabelEnable : String := "com.caddyserver.http.enable"

/-- Label key for the host matcher (source constant `LabelMatchHost`). -/
def LabelMatchHost : String := "com.caddyserver.http.matchers.host"

/-- Label key for the path matcher (source constant `LabelMatchPath`). -/
def LabelMatchPath : String := "com.caddyserver.http.matchers.path"

/-- Label key for the upstream port (source constant `LabelUpstreamPort`). -/
def LabelUpstreamPort : String := "com.caddyserver.http.upstream.port"

/-- Model of the external `caddyhttp.MatchHost` predicate at its interface
boundary (spec section 6: the request's Host header must match the label
value).  Its internal syntax is an external collaborator; no claim depends
on it beyond being some fixed predicate. -/
def MatchHost (value : String) (r : Request) : Bool :=
  r.host == value

/-- Model of the external `caddyhttp.MatchPath` predicate at its interface
boundary (spec section 6: the request's path must match the label value). -/
def MatchPath (value : String) (r : Request) : Bool :=
  r.path == value

/-- The registered matcher table (source `matchers`): a label key paired
with a predicate constructor.  Currently host-match and path-match. -/
def matchers : List (String × (String → Request → Bool)) :=
  [(LabelMatchHost, MatchHost), (LabelMatchPath, MatchPath)]

/-- Source `match(r, container)`: require the enable label to equal the
literal "true"; then every registered matcher whose label is present must
accept the request; absent matcher labels are skipped. -/
def matchContainer (r : Request) (container : Container) : Bool :=
  match container.labels LabelEnable with
  | none => false
  | some enable =>
    if enable != "true" then false
    else matchers.all fun km =>
      match container.labels km.1 with
      | none => true
      | some value => km.2 value r

/-- The process-wide `addresses` map keyed by container identity. -/
def Cache : Type := String → Option Upstream

/-- The initial (empty) address cache, `make(map[string]*reverseproxy.Upstream)`. -/
def emptyCache : Cache := fun _ => none

/-- Model of Go's `net.JoinHostPort`: joins host and port with a colon,
bracketing the host when it itself contains a colon. -/
def joinHostPort (host port : String) : String :=
  if host.data.contains ':' then "[" ++ host ++ "]:" ++ port
  else host ++ ":" ++ port

/-- Source `toUpstream(container)`: return the cached upstream for
`container.ID` if present; otherwise require the upstream-port label,
then take the first network attachment (no emptiness check on its IP),
join IP and port, cache the result under `container.ID`, and return it.
With no network attachment at all, fail with the "unable to get ip
address" error.  The threaded `Cache` models the `addresses` map. -/
def toUpstream (cache : Cache) (container : Container) :
    Except String Upstream × Cache :=
  match cache container.id with
  | some cached => (Except.ok cached, cache)
  | none =>
    match container.labels LabelUpstreamPort with
    | none => (Except.error "unable to get port from container labels", cache)
    | some port =>
      match container.networks with
      | [] => (Except.error "unable to get ip address from container networks", cache)
      | (_, ip) :: _ =>
        let upstream : Upstream := ⟨joinHostPort ip port⟩
        (Except.ok upstream,
         fun k => if k = container.id then some upstream else cache k)

/-- The loop body of `GetUpstreams`: iterate the snapshot in order, keep
matching containers that resolve, append their upstream to the
accumulator, and skip (only log) containers whose resolution fails. -/
def getUpstreamsLoop (r : Request) :
    List Container → List Upstream → Cache → List Upstream × Cache
  | [], acc, cache => (acc, cache)
  | c :: cs, acc, cache =>
    if matchContainer r c then
      match toUpstream cache c with
      | (Except.ok up, cache') => getUpstreamsLoop r cs (acc ++ [up]) cache'
      | (Except.error _, cache') => getUpstreamsLoop r cs acc cache'
    else getUpstreamsLoop r cs acc cache

/-- Source `GetUpstreams(r)`: run the loop over the current snapshot under
the read lock and return the accumulated upstreams together with a `nil`
error (the Go function's only return statement is `return upstreams, nil`).
The snapshot list and the address cache are explicit arguments; the final
component is the cache after the call. -/
def GetUpstreams (r : Request) (containers : List Container) (cache : Cache) :
    (List Upstream × Option String) × Cache :=
  let res := getUpstreamsLoop r containers [] cache
  ((res.1, none), res.2)

/-- Specification-side characterization used to compare against
`GetUpstreams`: the ordered list of (container, upstream) pairs obtained by
walking the snapshot, keeping each matching container whose resolution
succeeds with the cache as it stands at that point. -/
def resolvedPairs (r : Request) (cache : Cache) :
    List Container → List (Container × Upstream)
  | [] => []
  | c :: cs =>
    if matchContainer r c then
      match toUpstream cache c with
      | (Except.ok up, cache') => (c, up) :: resolvedPairs r cache' cs
      | (Except.error _, cache') => resolvedPairs r cache' cs
    else resolvedPairs r cache cs

/-! ### Watcher model (`keepUpdated`)

The Go watcher runs two nested loops: the outer loop opens a fresh event
subscription; the inner `selectLoop` receives either an event message (then
re-lists containers and, on success, replaces the snapshot under the write
lock; on failure, logs and `continue`s) or a subscription error (return on
`context.Canceled`, otherwise log and `break selectLoop`).  After the break
the watcher waits on the context being done (return) versus a 500 ms timer
(retry).  We model one run over a finite trace of received messages. -/

/-- Outcome of the `cli.ContainerList` call triggered by an event. -/
inductive ListResult where
  | ok (containers : List Container)
  | err (msg : String)

/-- One message received in the watcher's `select`: either an event from
the `messages` channel (carrying the outcome of the re-list it triggers)
or an error from the `errs` channel (`canceled` records whether
`errors.Is(err, context.Canceled)` holds). -/
inductive SelectMsg where
  | message (result : ListResult)
  | subError (canceled : Bool)

/-- How the watcher leaves (or fails to leave) the inner `selectLoop`
on a given finite trace. -/
inductive InnerExit where
  | msgsExhausted
  | broke
  | returned
deriving DecidableEq

/-- Outcome of the backoff `select` after `break selectLoop`: either the
governing context is done first, or the 500 ms timer fires first. -/
inductive BackoffOutcome where
  | ctxDone
  | timerFired

/-- The messages received during one subscription, followed by the backoff
outcome consulted if (and only if) the inner loop breaks. -/
structure OuterInput where
  msgs : List SelectMsg
  backoff : BackoffOutcome

/-- Whether the watcher is still running or has terminated once a trace
has been consumed. -/
inductive WatcherStatus where
  | running
  | terminated
deriving DecidableEq

/-- The inner `selectLoop` of `keepUpdated` over a finite message trace:
a successful re-list replaces the snapshot wholesale; a failed re-list
leaves it unchanged and continues; a canceled subscription error returns;
any other subscription error breaks out of the loop. -/
def runInner (containers : List Container) :
    List SelectMsg → List Container × InnerExit
  | [] => (containers, InnerExit.msgsExhausted)
  | SelectMsg.message (ListResult.ok cs) :: rest => runInner cs rest
  | SelectMsg.message (ListResult.err _) :: rest => runInner containers rest
  | SelectMsg.subError true :: _ => (containers, InnerExit.returned)
  | SelectMsg.subError false :: _ => (containers, InnerExit.broke)

/-- The fixed backoff delay between re-subscriptions,
`500 * time.Millisecond` in the source. -/
def backoffDelayMs : Nat := 500

/-- The outer loop of `keepUpdated` over a trace of subscription rounds:
each round runs the inner loop; a `returned` exit terminates the watcher,
a break consults the backoff `select` (context done terminates, the timer
firing re-subscribes), and an exhausted trace leaves the watcher running. -/
def keepUpdated (containers : List Container) :
    List OuterInput → List Container × WatcherStatus
  | [] => (containers, WatcherStatus.running)
  | input :: rest =>
    match runInner containers input.msgs with
    | (cs, InnerExit.returned) => (cs, WatcherStatus.terminated)
    | (cs, InnerExit.msgsExhausted) => (cs, WatcherStatus.running)
    | (cs, InnerExit.broke) =>
      match input.backoff with
      | BackoffOutcome.ctxDone => (cs, WatcherStatus.terminated)
      | BackoffOutcome.timerFired => keepUpdated cs rest

/-- A message that is not a canceled subscription error. -/
def msgNotCanceled : SelectMsg → Bool
  | SelectMsg.subError true => false
  | _ => true

/-- A backoff outcome in which the timer fired before context cancellation. -/
def backoffIsTimer : BackoffOutcome → Bool
  | BackoffOutcome.ctxDone => false
  | BackoffOutcome.timerFired => true

/-- A trace in which the governing context is never canceled: no received
subscription error is `context.Canceled` and every backoff wait ends with
the timer. -/
def noCancellation (inputs : List OuterInput) : Bool :=
  inputs.all fun i => i.msgs.all msgNotCanceled && backoffIsTimer i.backoff

/-! ### Snapshot store interleaving model

`Upstreams` guards its `containers` slice with `sync.RWMutex mu`:
`keepUpdated` replaces the slice wholesale under `mu.Lock()`, and
`GetUpstreams` iterates it under `mu.RLock()`.  We model the store as a
state machine whose actions are the lock operations and the wholesale
assignment, with read/write exclusion as enabling conditions; `published`
is the ghost history of every complete list ever assigned. -/

/-- Snapshot store state: reader count, whether the writer holds the lock,
the current `containers` slice, and the ghost history of complete lists
installed so far (the initial listing plus one entry per `ContainerList`
result the watcher assigned). -/
structure RWState where
  readers : Nat
  writerHeld : Bool
  containers : List Container
  published : List (List Container)

/-- Actions on the snapshot store: the watcher acquiring the write lock,
assigning a freshly listed slice, and releasing; a `GetUpstreams` reader
acquiring and releasing the read lock. -/
inductive RWAction where
  | wAcquire
  | wAssign (l : List Container)
  | wRelease
  | rAcquire
  | rRelease

/-- State after `Provision`: no lock held, the initial listing installed
and recorded as published. -/
def initRW (cs : List Container) : RWState :=
  ⟨0, false, cs, [cs]⟩

/-- One action of the snapshot store.  `none` means the action is not
enabled in this state (the mutex would block that thread, so no
interleaving performs it). -/
def rwStep (s : RWState) : RWAction → Option RWState
  | RWAction.wAcquire =>
    if s.readers == 0 && !s.writerHeld then some { s with writerHeld := true } else none
  | RWAction.wAssign l =>
    if s.writerHeld then
      some { s with containers := l, published := s.published ++ [l] }
    else none
  | RWAction.wRelease =>
    if s.writerHeld then some { s with writerHeld := false } else none
  | RWAction.rAcquire =>
    if !s.writerHeld then some { s with readers := s.readers + 1 } else none
  | RWAction.rRelease =>
    if s.readers != 0 then some { s with readers := s.readers - 1 } else none

/-- Run a sequence of actions from a state; fails if any action is not
enabled when its turn comes. -/
def rwRun (s : RWState) : List RWAction → Option RWState
  | [] => some s
  | a :: rest =>
    match rwStep s a with
    | none => none
    | some s' => rwRun s' rest

/-- True when at least one reader holds the read lock before every action
of the trace (the situation of one `GetUpstreams` call holding `mu.RLock()`
across its whole iteration while other threads interleave). -/
def readersHeldThrough (s : RWState) : List RWAction → Bool
  | [] => true
  | a :: rest =>
    s.readers != 0 &&
      match rwStep s a with
      | none => true
      | some s' => readersHeldThrough s' rest

/-! ### Concrete sample data used by witnesses and counterexamples -/

/-- A sample request. -/
def reqSample : Request := ⟨"example.com", "/"⟩

/-- A container with the enable label set and a port label, attached to one
network with a non-empty IP. -/
def cGood : Container :=
  ⟨"c-good",
   fun k => if k = LabelEnable then some "true"
     else if k = LabelUpstreamPort then some "8080" else none,
   [("bridge", "10.0.0.5")]⟩

/-- A container with the enable label but no upstream-port label. -/
def cNoPort : Container :=
  ⟨"c-noport",
   fun k => if k = LabelEnable then some "true" else none,
   [("bridge", "10.0.0.5")]⟩

/-- A container whose enable label is present but not the literal "true". -/
def cDisabled : Container :=
  ⟨"c-disabled",
   fun k => if k = LabelEnable then some "True" else none,
   [("bridge", "10.0.0.5")]⟩

/-- A container whose only network attachment has an empty IP address. -/
def cEmptyIp : Container :=
  ⟨"c-emptyip",
   fun k => if k = LabelEnable then some "true"
     else if k = LabelUpstreamPort then some "8080" else none,
   [("bridge", "")]⟩

/-- A cache already holding an entry for `cGood`'s identity. -/
def sampleCache : Cache :=
  fun k => if k = "c-good" then some ⟨"10.9.9.9:9999"⟩ else none

/-! ### Helper lemmas shared between the claim theorems -/

theorem toUpstream_hit (cache : Cache) (c : Container) (up : Upstream)
    (h : cache c.id = some up) :
    toUpstream cache c = (Except.ok up, cache) := by
  unfold toUpstream
  rw [h]

theorem toUpstream_preserves (cache : Cache) (c : Container) (k : String)
    (v : Upstream) (h : cache k = some v) :
    (toUpstream cache c).2 k = some v := by
  unfold toUpstream
  cases hid : cache c.id with
  | some u => exact h
  | none =>
    cases hport : c.labels LabelUpstreamPort with
    | none => exact h
    | some port =>
      cases hnet : c.networks with
      | nil => exact h
      | cons p rest =>
        obtain ⟨name, ip⟩ := p
        have hk : ¬ k = c.id := by
          intro he
          rw [he, hid] at h
          cases h
        simp only [hk, if_false]
        exact h

theorem getUpstreamsLoop_preserves (r : Request) :
    ∀ (cs : List Container) (acc : List Upstream) (cache : Cache) (k : String)
      (v : Upstream), cache k = some v →
      (getUpstreamsLoop r cs acc cache).2 k = some v
  | [], acc, cache, k, v, h => h
  | c :: cs, acc, cache, k, v, h => by
    unfold getUpstreamsLoop
    by_cases hm : matchContainer r c
    · rcases htu : toUpstream cache c with ⟨res, cache'⟩
      have h' : cache' k = some v := by
        have := toUpstream_preserves cache c k v h
        rw [htu] at this
        exact this
      cases res with
      | ok up =>
        simp only [hm, if_true, htu]
        exact getUpstreamsLoop_preserves r cs (acc ++ [up]) cache' k v h'
      | error e =>
        simp only [hm, if_true, htu]
        exact getUpstreamsLoop_preserves r cs acc cache' k v h'
    · simp only [hm, if_false]
      exact getUpstreamsLoop_preserves r cs acc cache k v h

theorem getUpstreamsLoop_append (r : Request) :
    ∀ (cs : List Container) (acc : List Upstream) (cache : Cache),
      (getUpstreamsLoop r cs acc cache).1 =
        acc ++ (resolvedPairs r cache cs).map Prod.snd
  | [], acc, cache => by simp [getUpstreamsLoop, resolvedPairs]
  | c :: cs, acc, cache => by
    unfold getUpstreamsLoop resolvedPairs
    by_cases hm : matchContainer r c
    · rcases htu : toUpstream cache c with ⟨res, cache'⟩
      cases res with
      | ok up =>
        simp only [hm, if_true, htu, List.map_cons]
        rw [getUpstreamsLoop_append r cs (acc ++ [up]) cache']
        simp
      | error e =>
        simp only [hm, if_true, htu]
        exact getUpstreamsLoop_append r cs acc cache'
    · simp only [hm, if_false]
      exact getUpstreamsLoop_append r cs acc cache

theorem resolvedPairs_fst_sublist (r : Request) :
    ∀ (cs : List Container) (cache : Cache),
      ((resolvedPairs r cache cs).map Prod.fst).Sublist cs
  | [], cache => by simp [resolvedPairs]
  | c :: cs, cache => by
    unfold resolvedPairs
    by_cases hm : matchContainer r c
    · rcases htu : toUpstream cache c with ⟨res, cache'⟩
      cases res with
      | ok up =>
        simp only [hm, if_true, htu, List.map_cons]
        exact List.Sublist.cons₂ c (resolvedPairs_fst_sublist r cs cache')
      | error e =>
        simp only [hm, if_true, htu]
        exact List.Sublist.cons c (resolvedPairs_fst_sublist r cs cache')
    · simp only [hm, if_false]
      exact List.Sublist.cons c (resolvedPairs_fst_sublist r cs cache)

theorem resolvedPairs_matched (r : Request) :
    ∀ (cs : List Container) (cache : Cache),
      ∀ p ∈ resolvedPairs r cache cs, matchContainer r p.1 = true
  | [], cache => by simp [resolvedPairs]
  | c :: cs, cache => by
    unfold resolvedPairs
    by_cases hm : matchContainer r c
    · rcases htu : toUpstream cache c with ⟨res, cache'⟩
      cases res with
      | ok up =>
        simp only [hm, if_true, htu]
        intro p hp
        cases hp with
        | head => exact hm
        | tail _ hp' => exact resolvedPairs_matched r cs cache' p hp'
      | error e =>
        simp only [hm, if_true, htu]
        exact resolvedPairs_matched r cs cache'
    · simp only [hm, if_false]
      exact resolvedPairs_matched r cs cache

theorem toUpstream_shape (cache : Cache) (c : Container) :
    (cache c.id ≠ none ∧ (toUpstream cache c).2 = cache) ∨
    (cache c.id = none ∧ (toUpstream cache c).2 = cache ∧
       ∃ e, (toUpstream cache c).1 = Except.error e) ∨
    (cache c.id = none ∧ ∃ up, (toUpstream cache c).1 = Except.ok up ∧
       (toUpstream cache c).2 = fun k => if k = c.id then some up else cache k) := by
  unfold toUpstream
  cases hid : cache c.id with
  | some u => exact Or.inl ⟨fun h => Option.noConfusion h, rfl⟩
  | none =>
    cases hport : c.labels LabelUpstreamPort with
    | none => exact Or.inr (Or.inl ⟨rfl, rfl, _, rfl⟩)
    | some port =>
      cases hnet : c.networks with
      | nil => exact Or.inr (Or.inl ⟨rfl, rfl, _, rfl⟩)
      | cons p rest =>
        obtain ⟨name, ip⟩ := p
        exact Or.inr (Or.inr ⟨rfl, ⟨joinHostPort ip port⟩, rfl, rfl⟩)

theorem toUpstream_new_entry (cache : Cache) (c : Container) (k : String)
    (h0 : cache k = none) (h1 : (toUpstream cache c).2 k ≠ none) :
    k = c.id ∧ ∃ up, (toUpstream cache c).1 = Except.ok up ∧
      (toUpstream cache c).2 k = some up := by
  rcases toUpstream_shape cache c with ⟨_, h2⟩ | ⟨_, h2, _⟩ | ⟨_, up, hok, h2⟩
  · rw [h2, h0] at h1
    exact absurd rfl h1
  · rw [h2, h0] at h1
    exact absurd rfl h1
  · by_cases hk : k = c.id
    · refine ⟨hk, up, hok, ?_⟩
      rw [h2]
      simp [hk]
    · rw [h2] at h1
      simp only [hk, if_false] at h1
      rw [h0] at h1
      exact absurd rfl h1

theorem runInner_not_returned :
    ∀ (msgs : List SelectMsg) (cs : List Container),
      msgs.all msgNotCanceled = true →
      (runInner cs msgs).2 ≠ InnerExit.returned
  | [], cs, _ => by
    intro hc
    exact InnerExit.noConfusion hc
  | SelectMsg.message (ListResult.ok l) :: rest, cs, h => by
    simp only [List.all_cons, Bool.and_eq_true] at h
    exact runInner_not_returned rest l h.2
  | SelectMsg.message (ListResult.err e) :: rest, cs, h => by
    simp only [List.all_cons, Bool.and_eq_true] at h
    exact runInner_not_returned rest cs h.2
  | SelectMsg.subError true :: rest, cs, h => by
    simp [List.all_cons, msgNotCanceled] at h
  | SelectMsg.subError false :: rest, cs, h => by
    intro hc
    exact InnerExit.noConfusion hc

theorem keepUpdated_no_cancellation :
    ∀ (inputs : List OuterInput) (cs : List Container),
      noCancellation inputs = true →
      (keepUpdated cs inputs).2 = WatcherStatus.running
  | [], cs, _ => rfl
  | input :: rest, cs, h => by
    simp only [noCancellation, List.all_cons, Bool.and_eq_true] at h
    obtain ⟨⟨hmsgs, hback⟩, hrest⟩ := h
    unfold keepUpdated
    rcases hr : runInner cs input.msgs with ⟨cs', ex⟩
    cases ex with
    | msgsExhausted => simp [hr]
    | returned =>
      exact absurd (by rw [hr]) (runInner_not_returned input.msgs cs hmsgs)
    | broke =>
      cases hb : input.backoff with
      | ctxDone =>
        rw [hb] at hback
        simp [backoffIsTimer] at hback
      | timerFired =>
        show (keepUpdated cs' rest).2 = WatcherStatus.running
        exact keepUpdated_no_cancellation rest cs'
          (by simpa [noCancellation] using hrest)

/-- Invariant of the snapshot store: a held write lock excludes readers,
and the current `containers` list is one of the published complete lists. -/
def rwInv (s : RWState) : Prop :=
  (s.writerHeld = true → s.readers = 0) ∧ s.containers ∈ s.published

theorem initRW_inv (cs : List Container) : rwInv (initRW cs) :=
  ⟨fun h => Bool.noConfusion h, List.mem_singleton_self cs⟩

theorem rwStep_inv (s : RWState) (a : RWAction) (s' : RWState)
    (hinv : rwInv s) (h : rwStep s a = some s') : rwInv s' := by
  obtain ⟨h1, h2⟩ := hinv
  cases a with
  | wAcquire =>
    simp only [rwStep] at h
    split at h
    · next hc =>
      injection h with h'
      subst h'
      simp only [Bool.and_eq_true, beq_iff_eq] at hc
      exact ⟨fun _ => hc.1, h2⟩
    · exact Option.noConfusion h
  | wAssign l =>
    simp only [rwStep] at h
    split at h
    · injection h with h'
      subst h'
      refine ⟨fun hw => h1 hw, ?_⟩
      simp
    · exact Option.noConfusion h
  | wRelease =>
    simp only [rwStep] at h
    split at h
    · injection h with h'
      subst h'
      exact ⟨fun hw => Bool.noConfusion hw, h2⟩
    · exact Option.noConfusion h
  | rAcquire =>
    simp only [rwStep] at h
    split at h
    · next hc =>
      injection h with h'
      subst h'
      refine ⟨fun hw => ?_, h2⟩
      rw [hw] at hc
      exact Bool.noConfusion hc
    · exact Option.noConfusion h
  | rRelease =>
    simp only [rwStep] at h
    split at h
    · injection h with h'
      subst h'
      refine ⟨fun hw => ?_, h2⟩
      rw [h1 hw]
    · exact Option.noConfusion h

theorem rwStep_const (s : RWState) (a : RWAction) (s1 : RWState)
    (hinv : rwInv s) (hr : (s.readers != 0) = true) (hs : rwStep s a = some s1) :
    s1.containers = s.containers := by
  have hr' : ¬ s.readers = 0 := by simpa [bne_iff_ne] using hr
  have hw : s.writerHeld = false := by
    cases hwh : s.writerHeld with
    | false => rfl
    | true => exact absurd (hinv.1 hwh) hr'
  cases a with
  | wAcquire =>
    simp only [rwStep] at hs
    split at hs
    · next hc =>
      simp only [Bool.and_eq_true, beq_iff_eq] at hc
      exact absurd hc.1 hr'
    · exact Option.noConfusion hs
  | wAssign l =>
    simp only [rwStep] at hs
    split at hs
    · next hc =>
      rw [hw] at hc
      exact Bool.noConfusion hc
    · exact Option.noConfusion hs
  | wRelease =>
    simp only [rwStep] at hs
    split at hs
    · next hc =>
      rw [hw] at hc
      exact Bool.noConfusion hc
    · exact Option.noConfusion hs
  | rAcquire =>
    simp only [rwStep] at hs
    split at hs
    · injection hs with h'
      subst h'
      rfl
    · exact Option.noConfusion hs
  | rRelease =>
    simp only [rwStep] at hs
    by_cases hc : (s.readers != 0) = true
    · rw [if_pos hc] at hs
      injection hs with h'
      subst h'
      rfl
    · rw [if_neg hc] at hs
      exact Option.noConfusion hs

theorem rwRun_inv (acts : List RWAction) :
    ∀ (s s' : RWState), rwInv s → rwRun s acts = some s' → rwInv s' := by
  induction acts with
  | nil =>
    intro s s' hinv h
    injection h with h'
    subst h'
    exact hinv
  | cons a rest ih =>
    intro s s' hinv h
    unfold rwRun at h
    cases hs : rwStep s a with
    | none =>
      rw [hs] at h
      exact Option.noConfusion h
    | some s1 =>
      rw [hs] at h
      exact ih s1 s' (rwStep_inv s a s1 hinv hs) h

theorem rwRun_const (acts : List RWAction) :
    ∀ (s s' : RWState), rwInv s → readersHeldThrough s acts = true →
      rwRun s acts = some s' → s'.containers = s.containers := by
  induction acts with
  | nil =>
    intro s s' _ _ h
    injection h with h'
    subst h'
    rfl
  | cons a rest ih =>
    intro s s' hinv hheld h
    unfold readersHeldThrough at hheld
    simp only [Bool.and_eq_true] at hheld
    obtain ⟨hr, hheld'⟩ := hheld
    unfold rwRun at h
    cases hs : rwStep s a with
    | none =>
      rw [hs] at h
      exact Option.noConfusion h
    | some s1 =>
      rw [hs] at h
      rw [hs] at hheld'
      have hc1 : s1.containers = s.containers := rwStep_const s a s1 hinv hr hs
      have hinv1 : rwInv s1 := rwStep_inv s a s1 hinv hs
      rw [ih s1 s' hinv1 hheld' h, hc1]

/-! ### Claim theorems -/

/-- C1 (amended): on a cache miss for the container's identity, resolution
fails with the missing-port error exactly when the upstream-port label is
absent, fails with the no-usable-address error exactly when the container
has no network attachment at all, and otherwise returns the first network
attachment's IP address (with no check that it is non-empty) joined with
the port. -/
theorem toUpstream_miss_characterization (cache : Cache) (c : Container)
    (h : cache c.id = none) :
    ((toUpstream cache c).1 = Except.error "unable to get port from container labels"
       ↔ c.labels LabelUpstreamPort = none) ∧
    ((toUpstream cache c).1 = Except.error "unable to get ip address from container networks"
       ↔ (c.labels LabelUpstreamPort ≠ none ∧ c.networks = [])) ∧
    (∀ port name ip rest, c.labels LabelUpstreamPort = some port →
       c.networks = (name, ip) :: rest →
       (toUpstream cache c).1 = Except.ok ⟨joinHostPort ip port⟩) := by
  unfold toUpstream
  rw [h]
  cases hport : c.labels LabelUpstreamPort with
  | none =>
    refine ⟨by simp, iff_of_false ?_ ?_, ?_⟩
    · intro he
      injection he with hs
      exact absurd hs (by decide)
    · exact fun hc => hc.1 rfl
    · intro port name ip rest hp hnet'
      exact Option.noConfusion hp
  | some p =>
    cases hnet : c.networks with
    | nil =>
      refine ⟨iff_of_false ?_ ?_, by simp, ?_⟩
      · intro he
        injection he with hs
        exact absurd hs (by decide)
      · exact fun hc => Option.noConfusion hc
      · intro port name ip rest hp hnet'
        exact List.noConfusion hnet'
    | cons q rest0 =>
      obtain ⟨name0, ip0⟩ := q
      refine ⟨iff_of_false ?_ ?_, iff_of_false ?_ ?_, ?_⟩
      · exact fun he => Except.noConfusion he
      · exact fun hc => Option.noConfusion hc
      · exact fun he => Except.noConfusion he
      · exact fun hc => List.noConfusion hc.2
      · intro port name ip rest hp hnet'
        injection hp with hp'
        injection hnet' with hq hrest
        injection hq with hname hip
        rw [hp', hip]

/-- C1 witness: a concrete container with no cached entry and no
upstream-port label falls in the missing-port case of
`toUpstream_miss_characterization`. -/
theorem toUpstream_miss_characterization_witness :
    emptyCache cNoPort.id = none ∧
    ((toUpstream emptyCache cNoPort).1 =
        Except.error "unable to get port from container labels"
      ↔ cNoPort.labels LabelUpstreamPort = none) :=
  ⟨rfl, (toUpstream_miss_characterization emptyCache cNoPort rfl).1⟩

/-- C1 counterexample: `cEmptyIp` has a port label, no cached entry, and a
single network attachment whose IP address is empty — so no attachment has
a non-empty IP — yet `toUpstream` does not fail with the no-usable-address
error; it returns the dial target ":8080" built from the empty IP. -/
theorem toUpstream_empty_ip_counterexample :
    emptyCache cEmptyIp.id = none ∧
    cEmptyIp.labels LabelUpstreamPort = some "8080" ∧
    cEmptyIp.networks = [("bridge", "")] ∧
    (toUpstream emptyCache cEmptyIp).1 = Except.ok ⟨":8080"⟩ ∧
    (toUpstream emptyCache cEmptyIp).1 ≠
      Except.error "unable to get ip address from container networks" := by
  refine ⟨rfl, rfl, rfl, rfl, ?_⟩
  intro hc
  rw [show (toUpstream emptyCache cEmptyIp).1 = Except.ok ⟨":8080"⟩ from rfl] at hc
  exact Except.noConfusion hc

/-- C2: `GetUpstreams` always returns a nil error, and its list is exactly
the upstreams of the matching containers that resolved successfully (in
particular, per-container resolution failures are only skipped and an
empty list is a possible value). -/
theorem GetUpstreams_never_errors (r : Request) (containers : List Container)
    (cache : Cache) :
    (GetUpstreams r containers cache).1.2 = none ∧
    (GetUpstreams r containers cache).1.1 =
      (resolvedPairs r cache containers).map Prod.snd := by
  refine ⟨rfl, ?_⟩
  show (getUpstreamsLoop r containers [] cache).1 = _
  rw [getUpstreamsLoop_append]
  simp

/-- C3: on a cache hit for the container's identity, `toUpstream` returns
the cached upstream unchanged and does not touch the cache, whatever the
record's current labels and networks are. -/
theorem toUpstream_idempotent_on_hit (cache : Cache) (c : Container)
    (up : Upstream) (h : cache c.id = some up) :
    toUpstream cache c = (Except.ok up, cache) :=
  toUpstream_hit cache c up h

/-- C3 witness: a cache holding an entry for `cGood`'s identity is returned
as-is, even though re-deriving from `cGood`'s labels and networks would
give a different dial address. -/
theorem toUpstream_idempotent_on_hit_witness :
    sampleCache cGood.id = some ⟨"10.9.9.9:9999"⟩ ∧
    toUpstream sampleCache cGood = (Except.ok ⟨"10.9.9.9:9999"⟩, sampleCache) :=
  ⟨rfl, toUpstream_idempotent_on_hit sampleCache cGood ⟨"10.9.9.9:9999"⟩ rfl⟩

/-- C4: a container whose labels lack the enable key or bind it to anything
other than the literal "true" never matches any request. -/
theorem match_requires_enable_true (r : Request) (c : Container)
    (h : c.labels LabelEnable ≠ some "true") :
    matchContainer r c = false := by
  unfold matchContainer
  cases he : c.labels LabelEnable with
  | none => rfl
  | some v =>
    have hv : (v != "true") = true := by
      rw [bne_iff_ne]
      intro hv'
      exact h (by rw [he, hv'])
    simp [hv]

/-- C4 witness: `cDisabled` carries enable="True" (not the literal "true")
and does not match the sample request. -/
theorem match_requires_enable_true_witness :
    cDisabled.labels LabelEnable ≠ some "true" ∧
    matchContainer reqSample cDisabled = false :=
  ⟨by decide, match_requires_enable_true reqSample cDisabled (by decide)⟩

/-- C5: a container with enable="true" and neither the host-match nor the
path-match label matches every request — absent matcher labels impose no
constraint. -/
theorem match_absent_matchers_wildcard (r : Request) (c : Container)
    (h1 : c.labels LabelEnable = some "true")
    (h2 : c.labels LabelMatchHost = none)
    (h3 : c.labels LabelMatchPath = none) :
    matchContainer r c = true := by
  unfold matchContainer
  rw [h1]
  simp [matchers, h2, h3]

/-- C5 witness: `cNoPort` carries only the enable label and matches the
sample request. -/
theorem match_absent_matchers_wildcard_witness :
    cNoPort.labels LabelEnable = some "true" ∧
    cNoPort.labels LabelMatchHost = none ∧
    cNoPort.labels LabelMatchPath = none ∧
    matchContainer reqSample cNoPort = true :=
  ⟨rfl, rfl, rfl, match_absent_matchers_wildcard reqSample cNoPort rfl rfl rfl⟩

/-- C9: the address cache only grows — `toUpstream` preserves every
existing entry, leaves the cache untouched on a hit, inserts at most an
entry for the given container's own identity (and only together with a
successful resolution), and `GetUpstreams` preserves every existing entry
as well; nothing ever removes or replaces an entry. -/
theorem addresses_cache_grow_only :
    (∀ cache c k v, cache k = some v → (toUpstream cache c).2 k = some v) ∧
    (∀ cache c up, cache c.id = some up → (toUpstream cache c).2 = cache) ∧
    (∀ cache c k, cache k = none → (toUpstream cache c).2 k ≠ none →
       k = c.id ∧ ∃ up, (toUpstream cache c).1 = Except.ok up ∧
         (toUpstream cache c).2 k = some up) ∧
    (∀ r containers cache k v, cache k = some v →
       (GetUpstreams r containers cache).2 k = some v) := by
  refine ⟨toUpstream_preserves, ?_, toUpstream_new_entry, ?_⟩
  · intro cache c up h
    rw [toUpstream_hit cache c up h]
  · intro r containers cache k v h
    exact getUpstreamsLoop_preserves r containers [] cache k v h

/-- C9 witness: an entry for `cGood`'s identity survives a `toUpstream`
call on `cGood` untouched. -/
theorem addresses_cache_grow_only_witness :
    sampleCache "c-good" = some ⟨"10.9.9.9:9999"⟩ ∧
    (toUpstream sampleCache cGood).2 "c-good" = some ⟨"10.9.9.9:9999"⟩ :=
  ⟨rfl, addresses_cache_grow_only.1 sampleCache cGood "c-good"
    ⟨"10.9.9.9:9999"⟩ rfl⟩

/-- C10: the list `GetUpstreams` returns consists of the upstreams of an
order-preserving selection of the snapshot — the containers that match the
request and resolve successfully, taken in snapshot order. -/
theorem GetUpstreams_preserves_snapshot_order (r : Request)
    (containers : List Container) (cache : Cache) :
    (GetUpstreams r containers cache).1.1 =
      (resolvedPairs r cache containers).map Prod.snd ∧
    ((resolvedPairs r cache containers).map Prod.fst).Sublist containers ∧
    (∀ p ∈ resolvedPairs r cache containers, matchContainer r p.1 = true) := by
  refine ⟨?_, resolvedPairs_fst_sublist r containers cache,
    resolvedPairs_matched r containers cache⟩
  show (getUpstreamsLoop r containers [] cache).1 = _
  rw [getUpstreamsLoop_append]
  simp

/-- C10 witness: on the one-element snapshot `[cGood]` the selected pair is
`cGood` with its resolved upstream, and it indeed matches the request. -/
theorem GetUpstreams_preserves_snapshot_order_witness :
    matchContainer reqSample cGood = true :=
  (GetUpstreams_preserves_snapshot_order reqSample [cGood] emptyCache).2.2
    (cGood, ⟨"10.0.0.5:8080"⟩)
    (by
      rw [show resolvedPairs reqSample emptyCache [cGood] =
          [(cGood, ⟨"10.0.0.5:8080"⟩)] from rfl]
      exact List.mem_singleton_self _)

/-- C6: a received event whose re-list fails leaves the snapshot exactly as
it was and keeps the inner receive loop going (a whole trace of failing
re-lists ends with the snapshot unchanged and the subscription alive), and
`GetUpstreams` keeps answering from the prior snapshot. -/
theorem relist_failure_keeps_snapshot :
    (∀ cs e rest,
       runInner cs (SelectMsg.message (ListResult.err e) :: rest) =
         runInner cs rest) ∧
    (∀ cs msgs,
       (∀ m ∈ msgs, ∃ e, m = SelectMsg.message (ListResult.err e)) →
       runInner cs msgs = (cs, InnerExit.msgsExhausted)) ∧
    (∀ cs e rest r cache,
       GetUpstreams r
           (runInner cs (SelectMsg.message (ListResult.err e) :: rest)).1 cache =
         GetUpstreams r (runInner cs rest).1 cache) := by
  have hall : ∀ (msgs : List SelectMsg) (cs : List Container),
      (∀ m ∈ msgs, ∃ e, m = SelectMsg.message (ListResult.err e)) →
      runInner cs msgs = (cs, InnerExit.msgsExhausted) := by
    intro msgs
    induction msgs with
    | nil => intro cs _; rfl
    | cons m rest ih =>
      intro cs h
      obtain ⟨e, he⟩ := h m (List.mem_cons_self m rest)
      subst he
      show runInner cs rest = _
      exact ih cs fun m' hm' => h m' (List.mem_cons_of_mem _ hm')
  exact ⟨fun cs e rest => rfl, fun cs msgs h => hall msgs cs h,
    fun cs e rest r cache => rfl⟩

/-- C6 witness: two failing re-lists in a row leave the one-container
snapshot untouched and the loop still receiving. -/
theorem relist_failure_keeps_snapshot_witness :
    runInner [cGood]
        [SelectMsg.message (ListResult.err "boom"),
         SelectMsg.message (ListResult.err "again")] =
      ([cGood], InnerExit.msgsExhausted) :=
  relist_failure_keeps_snapshot.2.1 [cGood] _
    (by
      intro m hm
      simp only [List.mem_cons, List.mem_singleton] at hm
      rcases hm with h | h | h
      · exact ⟨"boom", h⟩
      · exact ⟨"again", h⟩
      · exact absurd h (List.not_mem_nil m))

/-- C7: the watcher's backoff delay is the fixed 500 ms; a non-canceled
subscription error breaks the inner loop (snapshot intact) while a
canceled one returns; after a break, context-done during the backoff
terminates the watcher; and on any trace with no cancellation anywhere —
arbitrarily many transport errors each followed by the timer — the watcher
is still running, so only cancellation ever terminates it. -/
theorem keepUpdated_terminates_only_on_cancellation :
    backoffDelayMs = 500 ∧
    (∀ cs rest, runInner cs (SelectMsg.subError false :: rest) =
       (cs, InnerExit.broke)) ∧
    (∀ cs rest, runInner cs (SelectMsg.subError true :: rest) =
       (cs, InnerExit.returned)) ∧
    (∀ cs msgs rest cs', runInner cs msgs = (cs', InnerExit.broke) →
       keepUpdated cs (OuterInput.mk msgs BackoffOutcome.ctxDone :: rest) =
         (cs', WatcherStatus.terminated)) ∧
    (∀ cs inputs, noCancellation inputs = true →
       (keepUpdated cs inputs).2 = WatcherStatus.running) := by
  refine ⟨rfl, fun cs rest => rfl, fun cs rest => rfl, ?_,
    fun cs inputs h => keepUpdated_no_cancellation inputs cs h⟩
  intro cs msgs rest cs' h
  simp [keepUpdated, h]

/-- C7 witness: a trace holding one non-canceled subscription error
followed by the backoff timer, then a successful event round, leaves the
watcher running with the refreshed snapshot. -/
theorem keepUpdated_terminates_only_on_cancellation_witness :
    noCancellation
        [OuterInput.mk [SelectMsg.subError false] BackoffOutcome.timerFired,
         OuterInput.mk [SelectMsg.message (ListResult.ok [cGood])]
           BackoffOutcome.timerFired] = true ∧
    (keepUpdated []
        [OuterInput.mk [SelectMsg.subError false] BackoffOutcome.timerFired,
         OuterInput.mk [SelectMsg.message (ListResult.ok [cGood])]
           BackoffOutcome.timerFired]).2 = WatcherStatus.running :=
  ⟨rfl, keepUpdated_terminates_only_on_cancellation.2.2.2.2 [] _ rfl⟩

/-- C8: from the provisioned initial state, along any interleaving of
watcher and reader lock actions, once some reader holds the read lock (as
`GetUpstreams` does across its whole iteration) the snapshot list cannot
change for as long as the lock is held, and that list is one of the
complete published listings — a reader never sees a mixture of two listing
calls or a partial update. -/
theorem snapshot_replacement_atomic (cs0 : List Container)
    (acts acts' : List RWAction) (s s' : RWState)
    (h1 : rwRun (initRW cs0) acts = some s)
    (h2 : readersHeldThrough s acts' = true)
    (h3 : rwRun s acts' = some s') :
    s'.containers = s.containers ∧ s.containers ∈ s.published := by
  have hinv : rwInv s := rwRun_inv acts (initRW cs0) s (initRW_inv cs0) h1
  exact ⟨rwRun_const acts' s s' hinv h2 h3, hinv.2⟩

/-- C8 witness: with one reader holding the lock from the initial empty
snapshot, a further reader acquire/release pair leaves the held snapshot
untouched and it is the published initial listing. -/
theorem snapshot_replacement_atomic_witness :
    rwRun (initRW ([] : List Container)) [RWAction.rAcquire] =
      some ⟨1, false, [], [[]]⟩ ∧
    readersHeldThrough ⟨1, false, [], [[]]⟩
      [RWAction.rAcquire, RWAction.rRelease] = true ∧
    rwRun (⟨1, false, [], [[]]⟩ : RWState)
      [RWAction.rAcquire, RWAction.rRelease] = some ⟨1, false, [], [[]]⟩ ∧
    (⟨1, false, [], [[]]⟩ : RWState).containers ∈
      (⟨1, false, [], [[]]⟩ : RWState).published :=
  ⟨rfl, rfl, rfl,
    (snapshot_replacement_atomic [] [RWAction.rAcquire]
      [RWAction.rAcquire, RWAction.rRelease]
      ⟨1, false, [], [[]]⟩ ⟨1, false, [], [[]]⟩ rfl rfl rfl).2⟩

end DockerUpstreams
